import Mathlib

/-!
Verification of the task-tracker core (`task_tracker/database.py` and
`app.py`) against its natural-language specification.

The SQLite table `tasks` is modelled as a list of `Task` rows together with
the next AUTOINCREMENT id.  Timestamps are ISO-8601 strings of a fixed
format in the source; since SQLite compares such strings lexicographically,
which agrees with chronological order, they are modelled as natural numbers
(`created_at`, `completed_at`).  `message_ts` is an opaque Slack handle and
stays a `String`.  Fallible operations (`get_task` raising `KeyError`,
`create_task` raising `RuntimeError`, …) return `Option`/`Except`.
-/

namespace TaskTracker

/-- Row of the `tasks` table / the `Task` dataclass in `database.py`. -/
structure Task where
  id : Nat
  title : String
  description : String
  developer_id : String
  project_manager_id : String
  created_at : Nat
  completed_at : Option Nat
  developer_checked : Bool
  project_manager_checked : Bool
  channel_id : String
  message_ts : Option String
deriving DecidableEq

/-- State of the SQLite database: the rows of the single `tasks` table in
insertion (rowid) order, plus the next AUTOINCREMENT id. -/
structure DB where
  tasks : List Task
  next_id : Nat
deriving DecidableEq

/-- Errors of the repository layer: `KeyError` (spec: NotFound) and the
`RuntimeError` raised when a freshly inserted row cannot be read back
(spec: PersistenceError). -/
inductive RepoError where
  | notFound
  | persistenceError
deriving DecidableEq

/-- Source: `SELECT * FROM tasks WHERE id = ?` + `fetchone` — the first row
with the given id, if any (`TaskRepository.get_task` without the raise). -/
def select_task (db : DB) (task_id : Nat) : Option Task :=
  db.tasks.find? (fun t => t.id == task_id)

/-- Source: `TaskRepository.get_task`; raises `KeyError` when no row. -/
def get_task (db : DB) (task_id : Nat) : Except RepoError Task :=
  match select_task db task_id with
  | some t => .ok t
  | none => .error .notFound

/-- Source: `UPDATE tasks SET ... WHERE id = ?` — applies `f` to every row
whose id matches, leaving other rows untouched. -/
def update_where (db : DB) (task_id : Nat) (f : Task → Task) : DB :=
  { db with tasks := db.tasks.map (fun t => if t.id == task_id then f t else t) }

/-- Source: the INSERT of `TaskRepository.create_task` — a fresh row with
the next id, `created_at = now`, both flags 0 and NULL `completed_at` /
`message_ts`. -/
def insert_task (db : DB) (now : Nat)
    (title description developer_id project_manager_id channel_id : String) :
    DB × Nat :=
  let row : Task :=
    { id := db.next_id
      title := title
      description := description
      developer_id := developer_id
      project_manager_id := project_manager_id
      created_at := now
      completed_at := none
      developer_checked := false
      project_manager_checked := false
      channel_id := channel_id
      message_ts := none }
  ({ tasks := db.tasks ++ [row], next_id := db.next_id + 1 }, db.next_id)

/-- Source: `TaskRepository.create_task` — insert, read the row back by its
id, and raise (`RuntimeError`, spec: PersistenceError) when the read-back
returns no row. -/
def create_task (db : DB) (now : Nat)
    (title description developer_id project_manager_id channel_id : String) :
    Except RepoError (DB × Task) :=
  let inserted := insert_task db now title description developer_id project_manager_id channel_id
  match select_task inserted.1 inserted.2 with
  | some row => .ok (inserted.1, row)
  | none => .error .persistenceError

/-- Source: `TaskRepository.update_message_reference` — an unconditional
`UPDATE tasks SET channel_id = ?, message_ts = ? WHERE id = ?` whose
rowcount is never inspected, so an absent id is silently a no-op. -/
def update_message_reference (db : DB) (task_id : Nat)
    (channel_id message_ts : String) : DB :=
  update_where db task_id
    (fun t => { t with channel_id := channel_id, message_ts := some message_ts })

/-- Source: lines 135-138 of `TaskRepository.update_checkmarks` —
`existing.completed_at or _utcnow()` when both flags are set (the stored
timestamp is never the empty string, so Python `or` is `Option.getD`),
`None` otherwise. -/
def recomputed_completed_at (existing : Task) (now : Nat)
    (developer_checked project_manager_checked : Bool) : Option Nat :=
  if developer_checked && project_manager_checked then
    some (existing.completed_at.getD now)
  else
    none

/-- Source: the SET clause of the UPDATE in `update_checkmarks`. -/
def checkmarks_row_update (developer_checked project_manager_checked : Bool)
    (completed_at : Option Nat) (t : Task) : Task :=
  { t with developer_checked := developer_checked
           project_manager_checked := project_manager_checked
           completed_at := completed_at }

/-- Source: `TaskRepository.update_checkmarks` — fetch the existing row
(`KeyError` if absent), recompute `completed_at`, UPDATE the row, and
return the re-fetched row. -/
def update_checkmarks (db : DB) (now : Nat) (task_id : Nat)
    (developer_checked project_manager_checked : Bool) :
    Except RepoError (DB × Task) :=
  match select_task db task_id with
  | none => .error .notFound
  | some existing =>
    let db' := update_where db task_id
      (checkmarks_row_update developer_checked project_manager_checked
        (recomputed_completed_at existing now developer_checked project_manager_checked))
    match select_task db' task_id with
    | none => .error .notFound
    | some row => .ok (db', row)

/-- Source: the status branch of `TaskRepository._build_filters` —
`status == "completed"` keeps rows with both flags 1, `status == "pending"`
keeps the complement, any other value adds no condition. -/
def status_condition (status : Option String) (t : Task) : Bool :=
  if status = some "completed" then
    t.developer_checked && t.project_manager_checked
  else if status = some "pending" then
    !(t.developer_checked && t.project_manager_checked)
  else
    true

/-- Source: `TaskRepository._build_filters` — the conjunction of the status
condition, `created_at >= start` (when a start bound is given) and
`created_at < end` (when an end bound is given). -/
def matches_filters (status : Option String) (start end_ : Option Nat) (t : Task) : Bool :=
  status_condition status t
    && (match start with
        | none => true
        | some s => s ≤ t.created_at)
    && (match end_ with
        | none => true
        | some e => t.created_at < e)

/-- Source: `ORDER BY created_at DESC` — row `a` may precede row `b` when
`b.created_at ≤ a.created_at`. -/
def created_desc (a b : Task) : Bool :=
  b.created_at ≤ a.created_at

/-- Source: the `LIMIT ? [OFFSET ?]` tail of `TaskRepository.list_tasks`:
both given → drop `offset` then take `limit`; only a limit → take it; only
an offset → `LIMIT -1 OFFSET ?`, i.e. drop the offset; neither → all rows. -/
def apply_limit_offset (limit offset : Option Nat) (rows : List Task) : List Task :=
  match limit, offset with
  | some lim, some off => (rows.drop off).take lim
  | some lim, none => rows.take lim
  | none, some off => rows.drop off
  | none, none => rows

/-- Source: `TaskRepository.list_tasks` — filter, sort by `created_at`
descending (a stable sort of rowid order models SQLite's deterministic
scan), then apply limit/offset. -/
def list_tasks (db : DB) (status : Option String) (start end_ : Option Nat)
    (limit offset : Option Nat) : List Task :=
  apply_limit_offset limit offset
    ((db.tasks.filter (matches_filters status start end_)).mergeSort created_desc)

/-- Source: `TaskRepository.count_tasks` — `SELECT COUNT(*)` under the same
filters. -/
def count_tasks (db : DB) (status : Option String) (start end_ : Option Nat) : Nat :=
  (db.tasks.filter (matches_filters status start end_)).length

/-! ## Controller layer (`app.py`)

The Slack transport (posting, updating and deleting messages, modals,
ephemeral warnings) is external I/O; the handlers below model the storage
effect of each event together with which user-facing outcomes (warnings,
notifications, validation errors) the handler emits. -/

/-- Outcome of `handle_checkbox_action`: the new database state, the task
returned by `update_checkmarks`, which permission warnings were sent as
ephemeral messages, and which channel notifications were posted. -/
structure CheckboxOutcome where
  db : DB
  task : Task
  dev_permission_warning : Bool
  pm_permission_warning : Bool
  dev_checked_notification : Bool
  pm_checked_notification : Bool
  completed_notification : Bool
deriving DecidableEq

/-- Source: `handle_checkbox_action` in `app.py` — fetch the task, read the
desired flag values from the checkbox selection, revert (with an ephemeral
permission warning) any flag change whose requester is not the owning
identity, apply the resulting flags through `update_checkmarks`, and post
the edge-triggered notifications. -/
def handle_checkbox_action (db : DB) (now : Nat) (task_id : Nat)
    (user_id : String) (selected_developer selected_pm : Bool) :
    Except RepoError CheckboxOutcome :=
  match select_task db task_id with
  | none => .error .notFound
  | some task =>
    let previous_developer_checked := task.developer_checked
    let previous_pm_checked := task.project_manager_checked
    let dev_denied : Bool :=
      (selected_developer != previous_developer_checked) && (user_id != task.developer_id)
    let developer_checked :=
      if dev_denied then previous_developer_checked else selected_developer
    let pm_denied : Bool :=
      (selected_pm != previous_pm_checked) && (user_id != task.project_manager_id)
    let project_manager_checked :=
      if pm_denied then previous_pm_checked else selected_pm
    match update_checkmarks db now task_id developer_checked project_manager_checked with
    | .error e => .error e
    | .ok (db', updated_task) =>
      .ok { db := db'
            task := updated_task
            dev_permission_warning := dev_denied
            pm_permission_warning := pm_denied
            dev_checked_notification := developer_checked && !previous_developer_checked
            pm_checked_notification := project_manager_checked && !previous_pm_checked
            completed_notification :=
              updated_task.completed_at.isSome && !task.completed_at.isSome }

/-- Character class `[A-Z0-9]` of `BOT_MENTION_PATTERN`. -/
def is_mention_char (c : Char) : Bool :=
  c.isUpper || c.isDigit

/-- Source: `BOT_MENTION_PATTERN.findall(text)` for the pattern
`<@([A-Z0-9]+)>` — left-to-right non-overlapping scan; at a position
starting with `<@` followed by a non-empty `[A-Z0-9]` run and `>`, capture
the run and resume after the `>`; otherwise advance one character.  The
recursion is made structural with a fuel argument; every step consumes at
least one character, so fuel `cs.length` (see `find_mentions`) is never
exhausted before the input is. -/
def find_mentions_from (fuel : Nat) (cs : List Char) : List String :=
  match fuel, cs with
  | 0, _ => []
  | _ + 1, [] => []
  | fuel + 1, '<' :: '@' :: rest =>
    let run := rest.takeWhile is_mention_char
    (match rest.dropWhile is_mention_char with
     | '>' :: tail =>
       if run.isEmpty then
         find_mentions_from fuel ('@' :: rest)
       else
         String.mk run :: find_mentions_from fuel tail
     | _ => find_mentions_from fuel ('@' :: rest))
  | fuel + 1, _ :: cs => find_mentions_from fuel cs

/-- Source: `BOT_MENTION_PATTERN.findall(text)`. -/
def find_mentions (cs : List Char) : List String :=
  find_mentions_from cs.length cs

/-- Source: `BOT_MENTION_PATTERN.sub("", text)` — the same scan as
`find_mentions_from`, dropping each match and keeping every other
character. -/
def strip_mentions_from (fuel : Nat) (cs : List Char) : List Char :=
  match fuel, cs with
  | 0, _ => []
  | _ + 1, [] => []
  | fuel + 1, '<' :: '@' :: rest =>
    let run := rest.takeWhile is_mention_char
    (match rest.dropWhile is_mention_char with
     | '>' :: tail =>
       if run.isEmpty then
         '<' :: strip_mentions_from fuel ('@' :: rest)
       else
         strip_mentions_from fuel tail
     | _ => '<' :: strip_mentions_from fuel ('@' :: rest))
  | fuel + 1, c :: cs => c :: strip_mentions_from fuel cs

/-- Source: `BOT_MENTION_PATTERN.sub("", text)`. -/
def strip_mentions (cs : List Char) : List Char :=
  strip_mentions_from cs.length cs

/-- Source: the filter loop of `_parse_task_request` — every mention id
except the bot's own (`user_id == self.bot_user_id` is False when the bot
id is still unknown, i.e. `None`). -/
def assignee_mentions (bot_user_id : Option String) (text : String) : List String :=
  (find_mentions text.data).filter (fun u => some u ≠ bot_user_id)

/-- Source: `SlackTaskTracker._parse_task_request` — developer is the first
non-bot mention, project manager the second element of the mention list
when there is one (else the developer), description the text with mentions
removed and stripped. -/
def parse_task_request (bot_user_id : Option String) (text : String) :
    Option String × Option String × String :=
  let mentions := assignee_mentions bot_user_id text
  let developer_id := mentions.head?
  let project_manager_id :=
    if 1 < mentions.length then mentions.get? 1 else developer_id
  (developer_id, project_manager_id, (String.mk (strip_mentions text.data)).trim)

/-- Outcome of an `app_mention` event as far as storage is concerned:
either a user-visible (non-fatal) refusal, or a created task. The posting
of the Slack message afterwards is external I/O and not modelled. -/
inductive MentionOutcome where
  | no_channel
  | no_developer_error
  | no_author_error
  | persistence_failure
  | created (db : DB) (task : Task)
deriving DecidableEq

/-- Source: `handle_app_mention` in `app.py` — parse the mention text;
answer with a user-visible error (and create nothing) when no developer
mention or no author is found; otherwise create the task with title
`summary or "New task"`, empty description, and the configured tasks
channel. -/
def handle_app_mention (db : DB) (now : Nat) (tasks_channel : String)
    (bot_user_id : Option String) (channel : Option String)
    (text : String) (author_id : Option String) : MentionOutcome :=
  match channel with
  | none => .no_channel
  | some _ =>
    let parsed := parse_task_request bot_user_id text
    match parsed.1 with
    | none => .no_developer_error
    | some developer_id =>
      match author_id with
      | none => .no_author_error
      | some _ =>
        let summary := parsed.2.2
        let title := if summary = "" then "New task" else summary
        match create_task db now title "" developer_id
            (parsed.2.1.getD developer_id) tasks_channel with
        | .error _ => .persistence_failure
        | .ok (db', task) => .created db' task

/-- Validation failures of `_calculate_date_range`, each raised as a
`ValueError` in the source and caught by the filter-modal handler. -/
inductive DateRangeError where
  | missing_dates
  | end_before_start
deriving DecidableEq

/-- Source: `datetime.combine(day, datetime.min.time())` — midnight of a
day, as a timestamp. Days are modelled as day numbers, timestamps as
seconds, so midnight of day `d` is `d * 86400`. -/
def to_iso (day : Nat) : Nat :=
  day * 86400

/-- Source: `SlackTaskTracker._calculate_date_range` — maps a range option
and the two optional datepicker dates to a `[start, end)` timestamp pair
plus a label; the custom branch raises `ValueError` when a date is missing
or the end date precedes the start date, and otherwise ends at midnight of
the day after `end_date`. -/
def calculate_date_range (today : Nat) (option : String)
    (start_date end_date : Option Nat) :
    Except DateRangeError (Nat × Nat × String) :=
  if option = "today" then
    .ok (to_iso today, to_iso (today + 1), "Today")
  else if option = "yesterday" then
    .ok (to_iso (today - 1), to_iso today, "Yesterday")
  else if option = "last_7_days" then
    .ok (to_iso (today - 6), to_iso (today + 1), "Last 7 days")
  else if option = "custom" then
    match start_date, end_date with
    | some start_dt, some end_dt =>
      if end_dt < start_dt then
        .error .end_before_start
      else
        .ok (to_iso start_dt, to_iso (end_dt + 1), "Custom range")
    | _, _ => .error .missing_dates
  else
    .ok (to_iso (today - 6), to_iso (today + 1), "Last 7 days")

/-- Outcome of a filter-modal submission: a validation error acknowledged
inline (never fatal), or the first page of results with the total count. -/
inductive FilterSubmissionOutcome where
  | missing_range
  | validation_errors (e : DateRangeError)
  | results (tasks : List Task) (total : Nat)
deriving DecidableEq

/-- Source: `handle_tasks_filter_submission` in `app.py` — require a range
option, translate it via `_calculate_date_range` (a `ValueError` becomes an
inline validation response), map the status selection to the repository
status, and fetch page 1 of five via `_fetch_tasks_page`. -/
def handle_tasks_filter_submission (db : DB) (today : Nat)
    (range_option : Option String) (start_date end_date : Option Nat)
    (status_value : Option String) : FilterSubmissionOutcome :=
  match range_option with
  | none => .missing_range
  | some opt =>
    match calculate_date_range today opt start_date end_date with
    | .error e => .validation_errors e
    | .ok (start_ts, end_ts, _) =>
      let repo_status : Option String :=
        if status_value = some "completed" then some "completed"
        else if status_value = some "pending" then some "pending"
        else none
      .results
        (list_tasks db repo_status (some start_ts) (some end_ts) (some 5) (some 0))
        (count_tasks db repo_status (some start_ts) (some end_ts))

/-! ## Derived notions and concrete example states -/

/-- Spec §3 invariant: `completed_at` is present iff both checked flags are
true. -/
def completion_invariant (t : Task) : Prop :=
  t.completed_at.isSome = true ↔
    (t.developer_checked = true ∧ t.project_manager_checked = true)

instance (t : Task) : Decidable (completion_invariant t) :=
  inferInstanceAs (Decidable (_ ↔ _))

/-- The spec invariant, for every row of the table. -/
def db_invariant (db : DB) : Prop :=
  ∀ t ∈ db.tasks, completion_invariant t

instance (db : DB) : Decidable (db_invariant db) :=
  inferInstanceAs (Decidable (∀ t ∈ db.tasks, completion_invariant t))

/-- Follows the words of the spec sentence "a second distinct mention (if
present) becomes project_manager_id": the first mention after the developer
naming a different user.  This definition exists only to state that reading
of the claim; the source computes the project manager differently. -/
def spec_second_distinct_mention (mentions : List String) : Option String :=
  match mentions with
  | [] => none
  | d :: rest => rest.find? (fun u => u != d)

/-- Relation for the C10 frame condition: row `u'` agrees with row `u` on
every field other than the two checked flags and `completed_at`, and is
entirely equal to `u` when `u` is not the addressed row. -/
def frame_related (task_id : Nat) (u u' : Task) : Prop :=
  u'.id = u.id ∧ u'.title = u.title ∧ u'.description = u.description
  ∧ u'.developer_id = u.developer_id
  ∧ u'.project_manager_id = u.project_manager_id
  ∧ u'.created_at = u.created_at ∧ u'.channel_id = u.channel_id
  ∧ u'.message_ts = u.message_ts
  ∧ (u.id ≠ task_id → u' = u)

/-- A pending task owned by developer `U1` and project manager `U2`. -/
def task_one : Task :=
  { id := 1
    title := "Implement feature"
    description := ""
    developer_id := "U1"
    project_manager_id := "U2"
    created_at := 100
    completed_at := none
    developer_checked := false
    project_manager_checked := false
    channel_id := "C1"
    message_ts := none }

/-- A completed task whose message reference is already bound. -/
def task_two : Task :=
  { id := 2
    title := "Write docs"
    description := "docs"
    developer_id := "U3"
    project_manager_id := "U3"
    created_at := 200
    completed_at := some 250
    developer_checked := true
    project_manager_checked := true
    channel_id := "C1"
    message_ts := some "111.222" }

/-- A two-task database used to instantiate the theorems below. -/
def example_db : DB :=
  { tasks := [task_one, task_two], next_id := 3 }

/-- Creation text whose non-bot mentions are `U111`, `U111`, `U222`: the
developer is mentioned twice before the project manager. -/
def cex_text : String :=
  "<@UBOT> <@U111> <@U111> <@U222> fix login"

/-! ## Helper lemmas -/

theorem find?_map_pred_eq {α : Type _} (g : α → α) (q : α → Bool)
    (hg : ∀ a, q (g a) = q a) :
    ∀ l : List α, (l.map g).find? q = (l.find? q).map g
  | [] => rfl
  | a :: l => by
    by_cases h : q a = true
    · have hga : q (g a) = true := by rw [hg]; exact h
      rw [List.map_cons, List.find?_cons_of_pos _ hga, List.find?_cons_of_pos _ h]
      rfl
    · have hga : ¬ q (g a) = true := by rw [hg]; exact h
      rw [List.map_cons, List.find?_cons_of_neg _ hga, List.find?_cons_of_neg _ h,
        find?_map_pred_eq g q hg l]

theorem select_task_update_where (db : DB) (i j : Nat) (f : Task → Task)
    (hf : ∀ t, (f t).id = t.id) :
    select_task (update_where db i f) j
      = (select_task db j).map (fun t => if t.id == i then f t else t) :=
  find?_map_pred_eq _ _
    (fun a => by by_cases h : (a.id == i) = true <;> simp [h, hf]) db.tasks

theorem select_task_update_where_self (db : DB) (i : Nat) (f : Task → Task)
    (hf : ∀ t, (f t).id = t.id) (t : Task) (h : select_task db i = some t) :
    select_task (update_where db i f) i = some (f t) := by
  have h' : db.tasks.find? (fun u => u.id == i) = some t := h
  have ht0 := List.find?_some h'
  have ht : (t.id == i) = true := ht0
  rw [select_task_update_where db i i f hf, h]
  simp only [Option.map_some', ht, if_true]

theorem select_task_update_where_other (db : DB) (i j : Nat) (f : Task → Task)
    (hf : ∀ t, (f t).id = t.id) (hij : j ≠ i) :
    select_task (update_where db i f) j = select_task db j := by
  rw [select_task_update_where db i j f hf]
  cases h : select_task db j with
  | none => rfl
  | some t =>
    have h' : db.tasks.find? (fun u => u.id == j) = some t := h
    have ht0 := List.find?_some h'
    have ht : t.id = j := by simpa using ht0
    rw [Option.map_some']
    rw [if_neg]
    simp only [beq_iff_eq, ht]
    exact hij

theorem update_checkmarks_eq (db : DB) (now task_id : Nat) (d p : Bool)
    (t : Task) (h : select_task db task_id = some t) :
    update_checkmarks db now task_id d p =
      .ok (update_where db task_id
             (checkmarks_row_update d p (recomputed_completed_at t now d p)),
           checkmarks_row_update d p (recomputed_completed_at t now d p) t) := by
  have hsel := select_task_update_where_self db task_id
    (checkmarks_row_update d p (recomputed_completed_at t now d p)) (fun _ => rfl) t h
  unfold update_checkmarks
  rw [h]
  simp only [hsel]

theorem select_task_insert_self (db : DB) (now : Nat)
    (ti de dev pm ch : String)
    (hfresh : ∀ t ∈ db.tasks, t.id ≠ db.next_id) :
    select_task (insert_task db now ti de dev pm ch).1 db.next_id
      = some { id := db.next_id, title := ti, description := de,
               developer_id := dev, project_manager_id := pm, created_at := now,
               completed_at := none, developer_checked := false,
               project_manager_checked := false, channel_id := ch,
               message_ts := none } := by
  unfold select_task insert_task
  rw [List.find?_append]
  have h1 : db.tasks.find? (fun t => t.id == db.next_id) = none :=
    List.find?_eq_none.mpr (fun a ha => by simp [hfresh a ha])
  rw [h1]
  simp

theorem select_task_insert_isSome (db : DB) (now : Nat)
    (ti de dev pm ch : String) :
    (select_task (insert_task db now ti de dev pm ch).1
      (insert_task db now ti de dev pm ch).2).isSome = true := by
  unfold select_task insert_task
  rw [List.find?_append]
  cases h : db.tasks.find? (fun t => t.id == db.next_id) <;> simp

theorem mem_update_where {db : DB} {i : Nat} {f : Task → Task} {u : Task}
    (hu : u ∈ (update_where db i f).tasks) :
    ∃ v ∈ db.tasks, u = if (v.id == i) = true then f v else v := by
  simp only [update_where, List.mem_map] at hu
  obtain ⟨v, hv, rfl⟩ := hu
  exact ⟨v, hv, rfl⟩

theorem mem_list_tasks {db : DB} {st : Option String} {s e lim off : Option Nat}
    {t : Task} (ht : t ∈ list_tasks db st s e lim off) :
    t ∈ db.tasks ∧ matches_filters st s e t = true := by
  have hms : t ∈ (db.tasks.filter (matches_filters st s e)).mergeSort created_desc := by
    unfold list_tasks apply_limit_offset at ht
    cases lim <;> cases off
    · exact ht
    · exact List.drop_subset _ _ ht
    · exact List.take_subset _ _ ht
    · exact List.drop_subset _ _ (List.take_subset _ _ ht)
  rw [List.mem_mergeSort] at hms
  exact ⟨List.mem_of_mem_filter hms, List.of_mem_filter hms⟩

theorem matches_filters_completed (t : Task) :
    matches_filters (some "completed") none none t
      = (t.developer_checked && t.project_manager_checked) := by
  simp [matches_filters, status_condition]

theorem matches_filters_pending (t : Task) :
    matches_filters (some "pending") none none t
      = !(t.developer_checked && t.project_manager_checked) := by
  simp [matches_filters, status_condition]

theorem matches_filters_none (t : Task) :
    matches_filters none none none t = true := by
  simp [matches_filters, status_condition]

theorem forall₂_map_self {α : Type _} (R : α → α → Prop) (g : α → α) :
    ∀ l : List α, (∀ a ∈ l, R a (g a)) → List.Forall₂ R l (l.map g)
  | [], _ => List.Forall₂.nil
  | a :: l, h =>
    List.Forall₂.cons (h a (List.Mem.head l))
      (forall₂_map_self R g l fun b hb => h b (List.Mem.tail a hb))

theorem completion_invariant_updated (existing u : Task) (now : Nat) (d p : Bool) :
    completion_invariant
      (checkmarks_row_update d p (recomputed_completed_at existing now d p) u) := by
  cases d <;> cases p <;>
    simp [completion_invariant, checkmarks_row_update, recomputed_completed_at]

/-! ## Claims -/

/-- C1: every task stored in the table or returned by a Task Store
operation (`create_task`, `get_task`, `update_checkmarks`,
`update_message_reference`, `list_tasks`) satisfies
`completed_at present ⇔ developer_checked ∧ project_manager_checked`; in
particular `update_checkmarks` on an existing id re-establishes the
equivalence for the task it touches. -/
theorem c1_completion_invariant (db : DB) (now : Nat) (hdb : db_invariant db) :
    (∀ ti de dev pm ch db' t',
        create_task db now ti de dev pm ch = .ok (db', t') →
        db_invariant db' ∧ completion_invariant t')
    ∧ (∀ task_id d p db' t',
        update_checkmarks db now task_id d p = .ok (db', t') →
        db_invariant db' ∧ completion_invariant t')
    ∧ (∀ task_id ch ts, db_invariant (update_message_reference db task_id ch ts))
    ∧ (∀ task_id t, get_task db task_id = .ok t → completion_invariant t)
    ∧ (∀ st s e lim off t, t ∈ list_tasks db st s e lim off →
        completion_invariant t) := by
  refine ⟨?_, ?_, ?_, ?_, ?_⟩
  · intro ti de dev pm ch db' t' h
    cases hsel : select_task (insert_task db now ti de dev pm ch).1
        (insert_task db now ti de dev pm ch).2 with
    | none =>
      simp only [create_task, hsel] at h
      exact absurd h (by simp)
    | some row =>
      simp only [create_task, hsel, Except.ok.injEq, Prod.mk.injEq] at h
      have hdb' : db' = (insert_task db now ti de dev pm ch).1 := h.1.symm
      have hrow : t' = row := h.2.symm
      have hinv' : db_invariant db' := by
        rw [hdb']
        intro u hu
        simp only [insert_task, List.mem_append, List.mem_singleton] at hu
        rcases hu with hu | hu
        · exact hdb u hu
        · rw [hu]; simp [completion_invariant]
      refine ⟨hinv', ?_⟩
      rw [hrow]
      exact hinv' row (hdb' ▸ List.mem_of_find?_eq_some hsel)
  · intro task_id d p db' t' h
    cases hsel : select_task db task_id with
    | none => unfold update_checkmarks at h; rw [hsel] at h; exact absurd h (by simp)
    | some existing =>
      rw [update_checkmarks_eq db now task_id d p existing hsel] at h
      have hdb' : db' = update_where db task_id
          (checkmarks_row_update d p (recomputed_completed_at existing now d p)) := by
        cases h; rfl
      have ht' : t' = checkmarks_row_update d p
          (recomputed_completed_at existing now d p) existing := by
        cases h; rfl
      have hinv' : db_invariant db' := by
        rw [hdb']
        intro u hu
        obtain ⟨v, hv, rfl⟩ := mem_update_where hu
        by_cases hvi : (v.id == task_id) = true
        · simp only [hvi, if_true]
          exact completion_invariant_updated existing v now d p
        · simp only [hvi, if_false]
          exact hdb v hv
      exact ⟨hinv', ht' ▸ completion_invariant_updated existing existing now d p⟩
  · intro task_id ch ts u hu
    obtain ⟨v, hv, rfl⟩ := mem_update_where hu
    by_cases hvi : (v.id == task_id) = true
    · simp only [hvi, if_true]
      have := hdb v hv
      simpa [completion_invariant] using this
    · simp only [hvi, if_false]
      exact hdb v hv
  · intro task_id t h
    unfold get_task at h
    cases hsel : select_task db task_id with
    | none => rw [hsel] at h; exact absurd h (by simp)
    | some u =>
      rw [hsel] at h
      have : t = u := by cases h; rfl
      rw [this]
      exact hdb u (List.mem_of_find?_eq_some hsel)
  · intro st s e lim off t ht
    exact hdb t (mem_list_tasks ht).1

/-- Witness for C1 at a concrete store: the invariant holds of
`example_db` and is preserved by a message-reference update. -/
theorem c1_witness :
    db_invariant (update_message_reference example_db 1 "C2" "333.444") :=
  (c1_completion_invariant example_db 0 (by decide)).2.2.1 1 "C2" "333.444"

theorem update_where_absorb (db : DB) (i : Nat) (f g : Task → Task)
    (hf : ∀ u, (f u).id = u.id) (hgf : ∀ u, g (f u) = f u) :
    update_where (update_where db i f) i g = update_where db i f := by
  unfold update_where
  simp only [List.map_map]
  have hfun : (fun u => if u.id == i then g u else u)
        ∘ (fun u => if u.id == i then f u else u)
      = fun u => if u.id == i then f u else u := by
    funext a
    by_cases h : (a.id == i) = true
    · have hfa : ((f a).id == i) = true := by rw [hf]; exact h
      simp [Function.comp, h, hfa, hgf]
    · simp [Function.comp, h]
  rw [hfun]

theorem update_checkmarks_step (db : DB) (now task_id : Nat) (d p : Bool)
    (t : Task) (h : select_task db task_id = some t) :
    update_checkmarks db now task_id d p =
      .ok (update_where db task_id
             (checkmarks_row_update d p (recomputed_completed_at t now d p)),
           checkmarks_row_update d p (recomputed_completed_at t now d p) t)
    ∧ select_task
        (update_where db task_id
          (checkmarks_row_update d p (recomputed_completed_at t now d p)))
        task_id
        = some (checkmarks_row_update d p (recomputed_completed_at t now d p) t) :=
  ⟨update_checkmarks_eq db now task_id d p t h,
   select_task_update_where_self db task_id
     (checkmarks_row_update d p (recomputed_completed_at t now d p))
     (fun _ => rfl) t h⟩

theorem checkmarks_row_update_absorb (t u : Task) (nA nB : Nat) (d p : Bool) :
    checkmarks_row_update d p
      (recomputed_completed_at
        (checkmarks_row_update d p (recomputed_completed_at t nA d p) t) nB d p)
      (checkmarks_row_update d p (recomputed_completed_at t nA d p) u)
    = checkmarks_row_update d p (recomputed_completed_at t nA d p) u := by
  cases hdp : d && p <;>
    simp [checkmarks_row_update, recomputed_completed_at, hdp]

theorem update_checkmarks_repeat (db : DB) (nA nB task_id : Nat) (d p : Bool)
    (t : Task) (h : select_task db task_id = some t) :
    ∀ dbA tA, update_checkmarks db nA task_id d p = .ok (dbA, tA) →
      update_checkmarks dbA nB task_id d p = .ok (dbA, tA) := by
  intro dbA tA hA
  rw [update_checkmarks_eq db nA task_id d p t h] at hA
  injection hA with hA'
  injection hA' with hdbA htA
  subst hdbA
  subst htA
  obtain ⟨hB, -⟩ := update_checkmarks_step _ nB task_id d p _
    (select_task_update_where_self db task_id
      (checkmarks_row_update d p (recomputed_completed_at t nA d p))
      (fun _ => rfl) t h)
  rw [hB,
    update_where_absorb db task_id
      (checkmarks_row_update d p (recomputed_completed_at t nA d p))
      (checkmarks_row_update d p
        (recomputed_completed_at
          (checkmarks_row_update d p (recomputed_completed_at t nA d p) t) nB d p))
      (fun _ => rfl)
      (fun u => checkmarks_row_update_absorb t u nA nB d p),
    checkmarks_row_update_absorb t t nA nB d p]

/-- C2: for an existing id, `update_checkmarks(id, true, true)` sets
`completed_at` to the preserved-or-fresh timestamp; an immediately repeated
call with the same flags returns the identical store and task; a call with
either flag false clears `completed_at`; and a later re-completion yields a
`completed_at` greater than or equal to the original one, provided the
clock is non-decreasing (no stored timestamp exceeds `n₁`, and
`n₁ ≤ n₄`). -/
theorem c2_completed_at_algebra (db : DB) (task_id : Nat) (t : Task)
    (h : select_task db task_id = some t) (n₁ n₂ n₃ n₄ : Nat) (d p : Bool)
    (hdp : (d && p) = false)
    (hclock : ∀ c, t.completed_at = some c → c ≤ n₁) (h14 : n₁ ≤ n₄) :
    ∃ db₁ t₁ db₂ t₂ db₃ t₃ db₄ t₄,
      update_checkmarks db n₁ task_id true true = .ok (db₁, t₁)
      ∧ update_checkmarks db₁ n₂ task_id true true = .ok (db₂, t₂)
      ∧ update_checkmarks db₁ n₃ task_id d p = .ok (db₃, t₃)
      ∧ update_checkmarks db₃ n₄ task_id true true = .ok (db₄, t₄)
      ∧ t₁.completed_at = some (t.completed_at.getD n₁)
      ∧ db₂ = db₁ ∧ t₂ = t₁
      ∧ t₃.completed_at = none
      ∧ t₄.completed_at = some n₄
      ∧ (∀ c₁ c₄, t₁.completed_at = some c₁ → t₄.completed_at = some c₄ →
          c₁ ≤ c₄) := by
  obtain ⟨h₁, hsel₁⟩ := update_checkmarks_step db n₁ task_id true true t h
  have h₂ := update_checkmarks_repeat db n₁ n₂ task_id true true t h _ _ h₁
  obtain ⟨h₃, hsel₃⟩ := update_checkmarks_step _ n₃ task_id d p _ hsel₁
  obtain ⟨h₄, -⟩ := update_checkmarks_step _ n₄ task_id true true _ hsel₃
  refine ⟨_, _, _, _, _, _, _, _, h₁, h₂, h₃, h₄, ?_, rfl, rfl, ?_, ?_, ?_⟩
  · simp [checkmarks_row_update, recomputed_completed_at]
  · simp [checkmarks_row_update, recomputed_completed_at, hdp]
  · simp [checkmarks_row_update, recomputed_completed_at, hdp]
  · intro c₁ c₄ e₁ e₄
    have e₁' : t.completed_at.getD n₁ = c₁ := by
      simpa [checkmarks_row_update, recomputed_completed_at] using e₁
    have e₄' : n₄ = c₄ := by
      simpa [checkmarks_row_update, recomputed_completed_at, hdp] using e₄
    have hle : t.completed_at.getD n₁ ≤ n₁ := by
      cases ht : t.completed_at with
      | none => simp
      | some c => simpa using hclock c ht
    rw [← e₁', ← e₄']
    exact le_trans hle h14

/-- Witness for C2: the four-call chain on `example_db`, task 1, with
timestamps 300 ≤ 310 ≤ 320 ≤ 330. -/
theorem c2_witness :
    ∃ db₁ t₁ db₂ t₂ db₃ t₃ db₄ t₄,
      update_checkmarks example_db 300 1 true true = .ok (db₁, t₁)
      ∧ update_checkmarks db₁ 310 1 true true = .ok (db₂, t₂)
      ∧ update_checkmarks db₁ 320 1 true false = .ok (db₃, t₃)
      ∧ update_checkmarks db₃ 330 1 true true = .ok (db₄, t₄)
      ∧ t₁.completed_at = some (task_one.completed_at.getD 300)
      ∧ db₂ = db₁ ∧ t₂ = t₁
      ∧ t₃.completed_at = none
      ∧ t₄.completed_at = some 330
      ∧ (∀ c₁ c₄, t₁.completed_at = some c₁ → t₄.completed_at = some c₄ →
          c₁ ≤ c₄) :=
  c2_completed_at_algebra example_db 1 task_one (by rfl) 300 310 320 330
    true false (by decide) (fun _ hc => Option.noConfusion hc) (by decide)

/-- C3: for a checkbox toggle on an existing task, the stored developer
flag changes only when the requester is `developer_id` and the PM flag only
when the requester is `project_manager_id`; a flag change attempted by a
non-owner is reverted to the previous value and a permission warning is
emitted; the permitted subset of changes is applied through
`update_checkmarks`. -/
theorem c3_checkbox_authorization (db : DB) (now task_id : Nat) (t : Task)
    (h : select_task db task_id = some t) (user_id : String)
    (sel_d sel_p : Bool) :
    ∃ o, handle_checkbox_action db now task_id user_id sel_d sel_p = .ok o
      ∧ o.task.developer_checked
          = (if user_id = t.developer_id then sel_d else t.developer_checked)
      ∧ o.task.project_manager_checked
          = (if user_id = t.project_manager_id then sel_p
             else t.project_manager_checked)
      ∧ (o.dev_permission_warning = true ↔
          (sel_d ≠ t.developer_checked ∧ user_id ≠ t.developer_id))
      ∧ (o.pm_permission_warning = true ↔
          (sel_p ≠ t.project_manager_checked ∧ user_id ≠ t.project_manager_id))
      ∧ update_checkmarks db now task_id
          (if user_id = t.developer_id then sel_d else t.developer_checked)
          (if user_id = t.project_manager_id then sel_p
           else t.project_manager_checked)
          = .ok (o.db, o.task) := by
  have hd : (if (sel_d != t.developer_checked) && (user_id != t.developer_id)
        then t.developer_checked else sel_d)
      = (if user_id = t.developer_id then sel_d else t.developer_checked) := by
    by_cases hu : user_id = t.developer_id
    · simp [hu]
    · by_cases hs : sel_d = t.developer_checked
      · simp [hu, hs]
      · simp [hu, hs]
  have hp : (if (sel_p != t.project_manager_checked)
          && (user_id != t.project_manager_id)
        then t.project_manager_checked else sel_p)
      = (if user_id = t.project_manager_id then sel_p
         else t.project_manager_checked) := by
    by_cases hu : user_id = t.project_manager_id
    · simp [hu]
    · by_cases hs : sel_p = t.project_manager_checked
      · simp [hu, hs]
      · simp [hu, hs]
  have hstep := update_checkmarks_eq db now task_id
    (if user_id = t.developer_id then sel_d else t.developer_checked)
    (if user_id = t.project_manager_id then sel_p else t.project_manager_checked)
    t h
  unfold handle_checkbox_action
  rw [h]
  simp only [hd, hp, hstep]
  refine ⟨_, rfl, ?_, ?_, ?_, ?_, rfl⟩
  · rfl
  · rfl
  · simp [Bool.and_eq_true, bne_iff_ne, ne_eq]
  · simp [Bool.and_eq_true, bne_iff_ne, ne_eq]

/-- Witness for C3: the outsider `U9` tries to set the developer flag of
task 1 in `example_db`. -/
theorem c3_witness :
    ∃ o, handle_checkbox_action example_db 300 1 "U9" true false = .ok o
      ∧ o.task.developer_checked
          = (if "U9" = task_one.developer_id then true
             else task_one.developer_checked)
      ∧ o.task.project_manager_checked
          = (if "U9" = task_one.project_manager_id then false
             else task_one.project_manager_checked)
      ∧ (o.dev_permission_warning = true ↔
          (true ≠ task_one.developer_checked ∧ "U9" ≠ task_one.developer_id))
      ∧ (o.pm_permission_warning = true ↔
          (false ≠ task_one.project_manager_checked
            ∧ "U9" ≠ task_one.project_manager_id))
      ∧ update_checkmarks example_db 300 1
          (if "U9" = task_one.developer_id then true
           else task_one.developer_checked)
          (if "U9" = task_one.project_manager_id then false
           else task_one.project_manager_checked)
          = .ok (o.db, o.task) :=
  c3_checkbox_authorization example_db 300 1 task_one (by rfl) "U9" true false

/-- C4: with no date bounds and no pagination, the completed listing is
exactly the stored tasks with both flags true, the pending listing is
exactly the complement, and together they are a permutation of the
unfiltered listing. -/
theorem c4_status_partition (db : DB) :
    (∀ t, t ∈ list_tasks db (some "completed") none none none none ↔
        (t ∈ db.tasks
          ∧ (t.developer_checked = true ∧ t.project_manager_checked = true)))
    ∧ (∀ t, t ∈ list_tasks db (some "pending") none none none none ↔
        (t ∈ db.tasks
          ∧ ¬(t.developer_checked = true ∧ t.project_manager_checked = true)))
    ∧ List.Perm
        (list_tasks db (some "completed") none none none none
          ++ list_tasks db (some "pending") none none none none)
        (list_tasks db none none none none none) := by
  have hfc : db.tasks.filter (matches_filters (some "completed") none none)
      = db.tasks.filter
          (fun t => t.developer_checked && t.project_manager_checked) :=
    List.filter_congr (fun t _ => matches_filters_completed t)
  have hfp : db.tasks.filter (matches_filters (some "pending") none none)
      = db.tasks.filter
          (fun t => !(t.developer_checked && t.project_manager_checked)) :=
    List.filter_congr (fun t _ => matches_filters_pending t)
  have hfn : db.tasks.filter (matches_filters none none none) = db.tasks := by
    rw [List.filter_eq_self]
    intro a _
    exact matches_filters_none a
  refine ⟨?_, ?_, ?_⟩
  · intro t
    unfold list_tasks apply_limit_offset
    rw [List.mem_mergeSort, List.mem_filter, matches_filters_completed,
      Bool.and_eq_true]
  · intro t
    unfold list_tasks apply_limit_offset
    rw [List.mem_mergeSort, List.mem_filter, matches_filters_pending]
    have hbp : (!(t.developer_checked && t.project_manager_checked)) = true
        ↔ ¬(t.developer_checked = true ∧ t.project_manager_checked = true) := by
      cases t.developer_checked <;> cases t.project_manager_checked <;> simp
    rw [hbp]
  · show List.Perm
      ((db.tasks.filter (matches_filters (some "completed") none none)).mergeSort
          created_desc
        ++ (db.tasks.filter (matches_filters (some "pending") none none)).mergeSort
          created_desc)
      ((db.tasks.filter (matches_filters none none none)).mergeSort created_desc)
    have h3 : List.Perm
        ((db.tasks.filter (matches_filters none none none)).mergeSort created_desc)
        db.tasks := by
      rw [hfn]
      exact List.mergeSort_perm _ _
    refine List.Perm.trans
      (List.Perm.append (List.mergeSort_perm _ _) (List.mergeSort_perm _ _)) ?_
    refine List.Perm.trans ?_ h3.symm
    rw [hfc, hfp]
    exact List.filter_append_perm _ db.tasks

theorem flatMap_range_take_drop {α : Type _} (ps : Nat) (l : List α) :
    ∀ n, (List.range n).flatMap (fun k => (l.drop (k * ps)).take ps)
      = l.take (n * ps)
  | 0 => by simp
  | n + 1 => by
    rw [List.range_succ, List.flatMap_append, flatMap_range_take_drop ps l n,
      List.flatMap_cons, List.flatMap_nil, List.append_nil, Nat.succ_mul,
      List.take_add]

/-- C5: `count_tasks` equals the length of the unpaginated `list_tasks`
result under the same filter; concatenating the pages of size `ps` in order
(enough pages to cover the count) reproduces the full unpaginated result
exactly — so no duplicates and no gaps — and that result is ordered by
`created_at` descending. -/
theorem c5_pagination (db : DB) (status : Option String)
    (start end_ : Option Nat) (ps n : Nat)
    (hn : count_tasks db status start end_ ≤ n * ps) :
    count_tasks db status start end_
      = (list_tasks db status start end_ none none).length
    ∧ (List.range n).flatMap
        (fun k => list_tasks db status start end_ (some ps) (some (k * ps)))
        = list_tasks db status start end_ none none
    ∧ (list_tasks db status start end_ none none).Pairwise
        (fun a b => b.created_at ≤ a.created_at) := by
  have hlen : count_tasks db status start end_
      = (list_tasks db status start end_ none none).length := by
    unfold count_tasks list_tasks apply_limit_offset
    rw [List.length_mergeSort]
  refine ⟨hlen, ?_, ?_⟩
  · show (List.range n).flatMap
        (fun k =>
          (((db.tasks.filter (matches_filters status start end_)).mergeSort
            created_desc).drop (k * ps)).take ps)
        = (db.tasks.filter (matches_filters status start end_)).mergeSort
            created_desc
    rw [flatMap_range_take_drop]
    apply List.take_of_length_le
    rw [List.length_mergeSort]
    exact hn
  · show ((db.tasks.filter (matches_filters status start end_)).mergeSort
        created_desc).Pairwise (fun a b => b.created_at ≤ a.created_at)
    have htrans : ∀ a b c : Task, created_desc a b = true →
        created_desc b c = true → created_desc a c = true := by
      intro a b c hab hbc
      simp only [created_desc, decide_eq_true_eq] at hab hbc ⊢
      exact le_trans hbc hab
    have htotal : ∀ a b : Task, (created_desc a b || created_desc b a) = true := by
      intro a b
      simp only [created_desc, Bool.or_eq_true, decide_eq_true_eq]
      exact Nat.le_total b.created_at a.created_at
    have hsorted := List.sorted_mergeSort htrans htotal
      (db.tasks.filter (matches_filters status start end_))
    exact hsorted.imp (fun hab => by simpa [created_desc] using hab)

/-- Witness for C5: two tasks, page size 1, two pages. -/
theorem c5_witness :
    count_tasks example_db none none none
      = (list_tasks example_db none none none none none).length
    ∧ (List.range 2).flatMap
        (fun k => list_tasks example_db none none none (some 1) (some (k * 1)))
        = list_tasks example_db none none none none none
    ∧ (list_tasks example_db none none none none none).Pairwise
        (fun a b => b.created_at ≤ a.created_at) :=
  c5_pagination example_db none none none 1 2 (by decide)

theorem create_task_ok (db : DB) (now : Nat) (ti de dev pm ch : String)
    (hfresh : ∀ t ∈ db.tasks, t.id ≠ db.next_id) :
    create_task db now ti de dev pm ch
      = .ok ((insert_task db now ti de dev pm ch).1,
             { id := db.next_id, title := ti, description := de,
               developer_id := dev, project_manager_id := pm,
               created_at := now, completed_at := none,
               developer_checked := false, project_manager_checked := false,
               channel_id := ch, message_ts := none }) := by
  have hsel : select_task (insert_task db now ti de dev pm ch).1
      (insert_task db now ti de dev pm ch).2
      = some { id := db.next_id, title := ti, description := de,
               developer_id := dev, project_manager_id := pm,
               created_at := now, completed_at := none,
               developer_checked := false, project_manager_checked := false,
               channel_id := ch, message_ts := none } :=
    select_task_insert_self db now ti de dev pm ch hfresh
  simp only [create_task, hsel]

/-- C6: under a fresh next id, `create_task` succeeds and returns a task
with the freshly assigned id, `created_at` equal to the creation time,
both checked flags false, and `completed_at` absent; and it returns the
`PersistenceError` outcome exactly when the inserted row cannot be read
back after the insert. -/
theorem c6_create_task (db : DB) (now : Nat) (ti de dev pm ch : String)
    (hfresh : ∀ t ∈ db.tasks, t.id ≠ db.next_id) :
    create_task db now ti de dev pm ch
      = .ok ((insert_task db now ti de dev pm ch).1,
             { id := db.next_id, title := ti, description := de,
               developer_id := dev, project_manager_id := pm,
               created_at := now, completed_at := none,
               developer_checked := false, project_manager_checked := false,
               channel_id := ch, message_ts := none })
    ∧ (∀ er, create_task db now ti de dev pm ch = .error er ↔
        (er = .persistenceError
          ∧ select_task (insert_task db now ti de dev pm ch).1
              (insert_task db now ti de dev pm ch).2 = none)) := by
  refine ⟨create_task_ok db now ti de dev pm ch hfresh, ?_⟩
  intro er
  have hsel : select_task (insert_task db now ti de dev pm ch).1
      (insert_task db now ti de dev pm ch).2
      = some { id := db.next_id, title := ti, description := de,
               developer_id := dev, project_manager_id := pm,
               created_at := now, completed_at := none,
               developer_checked := false, project_manager_checked := false,
               channel_id := ch, message_ts := none } :=
    select_task_insert_self db now ti de dev pm ch hfresh
  rw [create_task_ok db now ti de dev pm ch hfresh, hsel]
  simp

/-- Witness for C6 on `example_db`, whose next id 3 is fresh. -/
theorem c6_witness :
    create_task example_db 400 "T" "D" "U7" "U8" "C3"
      = .ok ((insert_task example_db 400 "T" "D" "U7" "U8" "C3").1,
             { id := example_db.next_id, title := "T", description := "D",
               developer_id := "U7", project_manager_id := "U8",
               created_at := 400, completed_at := none,
               developer_checked := false, project_manager_checked := false,
               channel_id := "C3", message_ts := none })
    ∧ (∀ er, create_task example_db 400 "T" "D" "U7" "U8" "C3" = .error er ↔
        (er = .persistenceError
          ∧ select_task (insert_task example_db 400 "T" "D" "U7" "U8" "C3").1
              (insert_task example_db 400 "T" "D" "U7" "U8" "C3").2 = none)) :=
  c6_create_task example_db 400 "T" "D" "U7" "U8" "C3" (by decide)

theorem calculate_date_range_custom (today : Nat) (sd ed : Option Nat) :
    calculate_date_range today "custom" sd ed
      = match sd, ed with
        | some s, some e =>
          if e < s then .error .end_before_start
          else .ok (to_iso s, to_iso (e + 1), "Custom range")
        | _, _ => .error .missing_dates := by
  cases sd <;> cases ed <;> rfl

/-- C7: the custom date-range translation fails with a validation error —
surfaced by the filter-modal handler as an inline error response, not a
crash — exactly when a date is missing or the end precedes the start, and
otherwise yields the bounds `[to_iso start, to_iso (end+1))`, which the
store filter applies with the start inclusive and the end exclusive: a
task matches iff `start ≤ created_at < end`. -/
theorem c7_custom_date_range (today : Nat) (start_date end_date : Option Nat) :
    ((∃ er, calculate_date_range today "custom" start_date end_date = .error er)
      ↔ start_date = none ∨ end_date = none
        ∨ (∃ s e, start_date = some s ∧ end_date = some e ∧ e < s))
    ∧ (∀ s e, start_date = some s → end_date = some e → ¬ e < s →
        calculate_date_range today "custom" start_date end_date
          = .ok (to_iso s, to_iso (e + 1), "Custom range")
        ∧ (∀ t : Task,
            matches_filters none (some (to_iso s)) (some (to_iso (e + 1))) t
              = true
            ↔ (to_iso s ≤ t.created_at ∧ t.created_at < to_iso (e + 1))))
    ∧ (∀ db er,
        calculate_date_range today "custom" start_date end_date = .error er →
        handle_tasks_filter_submission db today (some "custom") start_date
          end_date none = .validation_errors er) := by
  refine ⟨?_, ?_, ?_⟩
  · rw [calculate_date_range_custom]
    cases start_date with
    | none => simp
    | some s =>
      cases end_date with
      | none => simp
      | some e =>
        by_cases hlt : e < s
        · simp only [hlt, if_true]
          constructor
          · intro _
            exact Or.inr (Or.inr ⟨s, e, rfl, rfl, hlt⟩)
          · intro _
            exact ⟨.end_before_start, rfl⟩
        · simp only [hlt, if_false]
          constructor
          · rintro ⟨er, her⟩
            exact absurd her (by simp)
          · rintro (hc | hc | ⟨s', e', hs', he', hlt'⟩)
            · exact absurd hc (by simp)
            · exact absurd hc (by simp)
            · injection hs' with hs'
              injection he' with he'
              subst hs'
              subst he'
              exact absurd hlt' hlt
  · intro s e hs he hlt
    subst hs
    subst he
    rw [calculate_date_range_custom]
    constructor
    · simp [hlt]
    · intro t
      simp [matches_filters, status_condition]
  · intro db er her
    simp only [handle_tasks_filter_submission, her]

/-- Witness for C7: the custom range May day 5 to day 7 succeeds with an
inclusive-start, exclusive-end filter. -/
theorem c7_witness :
    calculate_date_range 0 "custom" (some 5) (some 7)
      = .ok (to_iso 5, to_iso (7 + 1), "Custom range")
    ∧ (∀ t : Task,
        matches_filters none (some (to_iso 5)) (some (to_iso (7 + 1))) t = true
        ↔ (to_iso 5 ≤ t.created_at ∧ t.created_at < to_iso (7 + 1))) :=
  (c7_custom_date_range 0 (some 5) (some 7)).2.1 5 7 rfl rfl (by decide)

/-- C8 counterexample: in `cex_text` the non-bot mentions are
`U111, U111, U222`.  Reading the claim as written, the second distinct
mention `U222` should become `project_manager_id`, but the code takes the
second element of the mention list, `U111`, so the project manager defaults
to the developer instead. -/
theorem c8_counterexample :
    spec_second_distinct_mention (assignee_mentions (some "UBOT") cex_text)
        = some "U222"
    ∧ (parse_task_request (some "UBOT") cex_text).2.1 = some "U111"
    ∧ some "U111" ≠ (some "U222" : Option String) := by
  decide

/-- C8 amended: the first non-bot mention becomes `developer_id`; the
second element of the non-bot mention list — whether or not it names a
user distinct from the first — becomes `project_manager_id`, defaulting to
the developer when fewer than two mentions are present; and when no
non-bot mention is found the event is answered with a user-visible error
and no task is created. -/
theorem c8_amended_mention_parsing (bot : Option String) (text : String)
    (db : DB) (now : Nat) (tasks_channel channel author : String)
    (hfresh : ∀ t ∈ db.tasks, t.id ≠ db.next_id) :
    (parse_task_request bot text).1 = (assignee_mentions bot text).head?
    ∧ (parse_task_request bot text).2.1
        = (if 1 < (assignee_mentions bot text).length
           then (assignee_mentions bot text).get? 1
           else (assignee_mentions bot text).head?)
    ∧ (assignee_mentions bot text = [] →
        handle_app_mention db now tasks_channel bot (some channel) text
          (some author) = .no_developer_error)
    ∧ (∀ d rest, assignee_mentions bot text = d :: rest →
        ∃ db' task,
          handle_app_mention db now tasks_channel bot (some channel) text
              (some author) = .created db' task
          ∧ task.developer_id = d
          ∧ task.project_manager_id = rest.head?.getD d) := by
  refine ⟨rfl, rfl, ?_, ?_⟩
  · intro hemp
    have h1 : (parse_task_request bot text).1 = none := by
      show (assignee_mentions bot text).head? = none
      rw [hemp]
      rfl
    simp only [handle_app_mention, h1]
  · intro d rest hcons
    have h1 : (parse_task_request bot text).1 = some d := by
      show (assignee_mentions bot text).head? = some d
      rw [hcons]
      rfl
    have hok := create_task_ok db now
      (if (parse_task_request bot text).2.2 = "" then "New task"
       else (parse_task_request bot text).2.2)
      "" d ((parse_task_request bot text).2.1.getD d) tasks_channel hfresh
    refine ⟨(insert_task db now
        (if (parse_task_request bot text).2.2 = "" then "New task"
         else (parse_task_request bot text).2.2)
        "" d ((parse_task_request bot text).2.1.getD d) tasks_channel).1,
      { id := db.next_id,
        title := if (parse_task_request bot text).2.2 = "" then "New task"
                 else (parse_task_request bot text).2.2,
        description := "", developer_id := d,
        project_manager_id := (parse_task_request bot text).2.1.getD d,
        created_at := now, completed_at := none, developer_checked := false,
        project_manager_checked := false, channel_id := tasks_channel,
        message_ts := none }, ?_, rfl, ?_⟩
    · simp only [handle_app_mention, h1, hok]
    · show ((if 1 < (assignee_mentions bot text).length
          then (assignee_mentions bot text).get? 1
          else (assignee_mentions bot text).head?).getD d)
        = rest.head?.getD d
      rw [hcons]
      cases rest with
      | nil => simp
      | cons r rs => simp

/-- Witness for C8 (amended) at the concrete creation text: `U111` becomes
the developer and the second mention `U111` the project manager. -/
theorem c8_witness :
    ∃ db' task,
      handle_app_mention example_db 500 "CTASKS" (some "UBOT") (some "C0")
          cex_text (some "U999") = .created db' task
      ∧ task.developer_id = "U111"
      ∧ task.project_manager_id = (["U111", "U222"].head?).getD "U111" :=
  (c8_amended_mention_parsing (some "UBOT") cex_text example_db 500 "CTASKS"
      "C0" "U999" (by decide)).2.2.2 "U111" ["U111", "U222"] (by decide)

/-- C9 counterexample: task 2 of `example_db` already has its message
reference bound (`message_ts = some "111.222"`), yet a further
`update_message_reference` call replaces it — the operation does not
enforce a one-time binding. -/
theorem c9_counterexample :
    task_two.message_ts = some "111.222"
    ∧ (select_task (update_message_reference example_db 2 "C9" "999.000") 2).map
        Task.message_ts = some (some "999.000")
    ∧ some (some "999.000") ≠ some task_two.message_ts := by
  decide

/-- C9 amended: `update_message_reference` binds `channel_id` and
`message_ts` unconditionally on every call — the one-time discipline is
upheld by its callers, which invoke it only immediately after creating the
task — and a call whose id matches no row is a no-op that neither fails
nor changes any stored task. -/
theorem c9_amended_message_reference (db : DB) (task_id : Nat)
    (ch ts : String) :
    (∀ t, select_task db task_id = some t →
        select_task (update_message_reference db task_id ch ts) task_id
          = some { t with channel_id := ch, message_ts := some ts })
    ∧ (∀ j, j ≠ task_id →
        select_task (update_message_reference db task_id ch ts) j
          = select_task db j)
    ∧ (select_task db task_id = none →
        update_message_reference db task_id ch ts = db) := by
  refine ⟨?_, ?_, ?_⟩
  · intro t ht
    exact select_task_update_where_self db task_id
      (fun t => { t with channel_id := ch, message_ts := some ts })
      (fun _ => rfl) t ht
  · intro j hj
    exact select_task_update_where_other db task_id j
      (fun t => { t with channel_id := ch, message_ts := some ts })
      (fun _ => rfl) hj
  · intro hnone
    have hall : ∀ u ∈ db.tasks, ¬ ((u.id == task_id) = true) := by
      intro u hu
      have := List.find?_eq_none.mp hnone u hu
      simpa using this
    have hmap : db.tasks.map
        (fun t => if t.id == task_id
          then { t with channel_id := ch, message_ts := some ts } else t)
        = db.tasks := by
      conv_rhs => rw [← List.map_id db.tasks]
      apply List.map_congr_left
      intro a ha
      have hne := hall a ha
      rw [Bool.not_eq_true] at hne
      simp [hne]
    unfold update_message_reference update_where
    rw [hmap]

/-- Witness for C9 (amended): rebinding the reference of task 2. -/
theorem c9_witness :
    select_task (update_message_reference example_db 2 "C9" "999.000") 2
      = some { task_two with channel_id := "C9", message_ts := some "999.000" } :=
  (c9_amended_message_reference example_db 2 "C9" "999.000").1 task_two (by rfl)

/-- C10: a successful `update_checkmarks` call leaves every row of the
table in the `frame_related` relation with its old value: only the two
checked flags and `completed_at` of rows with the addressed id may change,
every other field and every other row is untouched, and the next id is
unchanged. -/
theorem c10_update_checkmarks_frame (db : DB) (now task_id : Nat)
    (d p : Bool) (db' : DB) (t' : Task)
    (h : update_checkmarks db now task_id d p = .ok (db', t')) :
    List.Forall₂ (frame_related task_id) db.tasks db'.tasks
    ∧ db'.next_id = db.next_id := by
  cases hsel : select_task db task_id with
  | none =>
    unfold update_checkmarks at h
    rw [hsel] at h
    exact absurd h (by simp)
  | some existing =>
    rw [update_checkmarks_eq db now task_id d p existing hsel] at h
    injection h with h'
    injection h' with hdb ht
    subst hdb
    constructor
    · apply forall₂_map_self
      intro a _
      by_cases ha : (a.id == task_id) = true
      · simp only [ha, if_true]
        refine ⟨rfl, rfl, rfl, rfl, rfl, rfl, rfl, rfl, ?_⟩
        intro hne
        exact absurd (by simpa using ha) hne
      · simp only [ha, if_false]
        exact ⟨rfl, rfl, rfl, rfl, rfl, rfl, rfl, rfl, fun _ => rfl⟩
    · rfl

/-- Witness for C10: checking only the developer flag of task 1 keeps all
other fields and the other task unchanged. -/
theorem c10_witness :
    List.Forall₂ (frame_related 1) example_db.tasks
      (update_where example_db 1
        (checkmarks_row_update true false
          (recomputed_completed_at task_one 300 true false))).tasks
    ∧ (update_where example_db 1
        (checkmarks_row_update true false
          (recomputed_completed_at task_one 300 true false))).next_id
      = example_db.next_id :=
  c10_update_checkmarks_frame example_db 300 1 true false _ _
    (update_checkmarks_eq example_db 300 1 true false task_one (by rfl))

end TaskTracker
